import Mathlib

/-!
Verification of the ClipForge media core (`src-tauri/src/lib.rs`) against its
natural-language specification.

The Rust source is shallowly embedded below.  Conventions used throughout:

* Rust `String` / `&str` values are embedded as `List Char`; the helper `cl`
  converts a Lean string literal to that form.
* `u64` arithmetic is `Nat` with explicit `% 2^64` wrapping where the source
  performs machine subtraction/addition that could wrap.
* `f64` time values are idealized as `ℚ` (the claims under study never depend
  on floating-point rounding artifacts); the textual rendering of numbers
  (Rust `Display` / `format!` with precision) is abstracted as an explicit
  rendering-function parameter, since no claim inspects a rendered number.
* External effects (spawning ffmpeg/ffprobe, reading their exit status and
  stderr, file creation) are passed in as explicit oracle/environment values;
  the embedded functions reproduce the Rust control flow over them.
-/

/-- Convert a string literal to the `List Char` representation used for Rust
strings. -/
def cl (s : String) : List Char := s.toList

/-- Modulus of `u64` arithmetic. -/
def two64 : Nat := 2 ^ 64

/-- Wrapping `u64` subtraction `a - b` (release-mode semantics), for
`a b < two64`. -/
def sub64 (a b : Nat) : Nat := (a + two64 - b % two64) % two64

/-- Embeds `pat.isPrefixOf s` as a boolean, embedding Rust `str::starts_with`
style checks used by `contains`. -/
def startsWithL {α : Type} [DecidableEq α] : List α → List α → Bool
  | [], _ => true
  | _ :: _, [] => false
  | p :: ps, c :: cs => decide (p = c) && startsWithL ps cs

/-- Rust `str::contains(pat)`: `pat` occurs as a contiguous substring of
`s`. -/
def containsSub {α : Type} [DecidableEq α] : List α → List α → Bool
  | [], pat => pat.isEmpty
  | c :: rest, pat => startsWithL pat (c :: rest) || containsSub rest pat

/-- Rust `str::split(ch)`: split at every occurrence of `ch`; the result is
never empty (splitting the empty string yields one empty field). -/
def splitOnChar (ch : Char) : List Char → List (List Char)
  | [] => [[]]
  | c :: rest =>
    if c = ch then [] :: splitOnChar ch rest
    else
      match splitOnChar ch rest with
      | [] => [[c]]
      | p :: ps => (c :: p) :: ps

/-- Rust `str::lines()`: split at `'\n'`, drop a final empty field produced
by a trailing newline, and strip one trailing `'\r'` from each line. -/
def rustLines (s : List Char) : List (List Char) :=
  let parts := splitOnChar '\n' s
  let parts2 := if parts.getLast? = some [] then parts.dropLast else parts
  parts2.map fun l => if l.getLast? = some '\r' then l.dropLast else l

/-- Accumulator for decimal parsing: all characters must be ASCII digits. -/
def parseDigitsAux : List Char → Nat → Option Nat
  | [], acc => some acc
  | c :: r, acc =>
    if c.isDigit then parseDigitsAux r (acc * 10 + (c.toNat - 48)) else none

/-- Rust `str::parse::<u64>()`: an optional leading `'+'`, then at least one
ASCII digit, and the value must fit in a `u64`. -/
def parseU64 (s : List Char) : Option Nat :=
  let s2 := match s with
    | '+' :: r => r
    | _ => s
  match s2 with
  | [] => none
  | _ =>
    match parseDigitsAux s2 0 with
    | some n => if n < two64 then some n else none
    | none => none

/-- Decimal rendering of a natural number, as produced by Rust
`format!` with `{}` on an unsigned integer. -/
def digitsOf (n : Nat) : List Char := Nat.toDigits 10 n

/-- Rust `Vec::join(sep)` on a list of strings. -/
def joinSep (sep : List Char) : List (List Char) → List Char
  | [] => []
  | [x] => x
  | x :: y :: rest => x ++ sep ++ joinSep sep (y :: rest)

/-- Embeds `f64::round()`: nearest integer, ties away from zero. -/
def roundAway (q : ℚ) : ℤ := if 0 ≤ q then ⌊q + 1 / 2⌋ else -⌊-q + 1 / 2⌋

/-- Embeds `round_to_millis` (lib.rs:54): `(value * 1000.0).round() / 1000.0`. -/
def round_to_millis (value : ℚ) : ℚ := (roundAway (value * 1000) : ℚ) / 1000

section RangeServer

/-!
## Streaming Range Server

Embedding of the `video://` URI-scheme protocol handler (lib.rs:2153-2280).
A served file is modeled as `Option (List Nat)`: `none` when opening the
file fails (`404` path), `some data` for an existing file whose bytes are
`data`.  For an existing file the model lets `metadata()` and a full
`std::fs::read` succeed, and lets `seek` succeed (seeking a regular file to
any `u64` offset succeeds even past EOF); `read_exact` fails exactly when
fewer bytes than requested remain, which is the only I/O failure the claims
concern.  Header values are modeled as the `List Char` contents of the
`Range` header.
-/

/-- The response the handler builds: status code, presence of the
`Content-Type: video/mp4` header, the `Content-Range` triple
`(start, end, total)`, the `Content-Length` value, presence of
`Accept-Ranges: bytes`, presence of the CORS allow-origin header, and the
body bytes. -/
structure VResponse where
  status : Nat
  contentType : Bool
  contentRange : Option (Nat × Nat × Nat)
  contentLength : Option Nat
  acceptRanges : Bool
  corsAllowOrigin : Bool
  body : List Nat
deriving DecidableEq

/-- Body of the 404 response (`format!` of "Video not found: {e}"); the
OS error text is elided, no claim inspects it. -/
def notFoundBody : List Nat := (cl "Video not found").map Char.toNat

/-- The 404 response (lib.rs:2175-2179). -/
def notFoundResp : VResponse :=
  ⟨404, false, none, none, false, true, notFoundBody⟩

/-- Embeds `Read::read_exact` into a buffer of `len` bytes after seeking to
`start`: succeeds returning the bytes `[start, start+len)` when they all
exist; a zero-length read always succeeds. -/
def readExact (data : List Nat) (start len : Nat) : Option (List Nat) :=
  if len = 0 then some []
  else if start + len ≤ data.length then some ((data.drop start).take len)
  else none

/-- The partial-content branch (lib.rs:2214-2250) once `start` and `end`
have been computed: wrapping `u64` length computation, seek + `read_exact`,
`500` with empty body on a read failure, otherwise `206` with the
`Content-Range` header. -/
def serveRange (data : List Nat) (start e : Nat) : VResponse :=
  let content_length := (sub64 e start + 1) % two64
  match readExact data start content_length with
  | none => ⟨500, false, none, none, false, true, []⟩
  | some buffer =>
    ⟨206, true, some (start, e, data.length), some content_length, true, true,
      buffer⟩

/-- Embeds `range_str.strip_prefix("bytes=")` (lib.rs:2204). -/
def stripBytesUnit : List Char → Option (List Char)
  | 'b' :: 'y' :: 't' :: 'e' :: 's' :: '=' :: rest => some rest
  | _ => none

/-- The 200 whole-file response (lib.rs:2258-2269). -/
def fullResp (data : List Nat) : VResponse :=
  ⟨200, true, none, some data.length, true, true, data⟩

/-- The `video://` protocol handler (lib.rs:2153-2280).  `file` is the
outcome of `File::open`; `rangeHeader` the `Range` header value, when
present and valid UTF-8. -/
def handleVideoRequest (file : Option (List Nat))
    (rangeHeader : Option (List Char)) : VResponse :=
  match file with
  | none => notFoundResp
  | some data =>
    let file_size := data.length
    let rangeResp : Option VResponse :=
      match rangeHeader with
      | some range_str =>
        match stripBytesUnit range_str with
        | some range_values =>
          match splitOnChar '-' range_values with
          | [p0, p1] =>
            let start := (parseU64 p0).getD 0
            let e :=
              if p1 = [] then file_size - 1
              else min ((parseU64 p1).getD (file_size - 1)) (file_size - 1)
            some (serveRange data start e)
          | _ => none
        | none => none
      | none => none
    match rangeResp with
    | some r => r
    | none => fullResp data

/-- A `Range: bytes=<s₁>-<s₂>` header value. -/
def bytesHeader (s₁ s₂ : List Char) : List Char :=
  'b' :: 'y' :: 't' :: 'e' :: 's' :: '=' :: (s₁ ++ '-' :: s₂)

/-- A `Range: bytes=<s>` header value with arbitrary text after the
equals sign. -/
def bytesHeaderRaw (s : List Char) : List Char :=
  'b' :: 'y' :: 't' :: 'e' :: 's' :: '=' :: s

end RangeServer

section RangeServerLemmas

theorem splitOnChar_ne_nil (ch : Char) (s : List Char) :
    splitOnChar ch s ≠ [] := by
  induction s with
  | nil => simp [splitOnChar]
  | cons c rest ih =>
    simp only [splitOnChar]
    split
    · simp
    · cases h : splitOnChar ch rest <;> simp

theorem splitOnChar_of_not_mem (ch : Char) (s : List Char) (h : ch ∉ s) :
    splitOnChar ch s = [s] := by
  induction s with
  | nil => rfl
  | cons c rest ih =>
    simp only [List.mem_cons, not_or] at h
    simp only [splitOnChar]
    rw [if_neg (fun hc => h.1 hc.symm), ih h.2]

theorem splitOnChar_append (ch : Char) (s₁ s₂ : List Char) (h : ch ∉ s₁) :
    splitOnChar ch (s₁ ++ ch :: s₂) = s₁ :: splitOnChar ch s₂ := by
  induction s₁ with
  | nil => simp [splitOnChar]
  | cons c rest ih =>
    simp only [List.mem_cons, not_or] at h
    simp only [List.cons_append, splitOnChar]
    rw [if_neg (fun hc => h.1 hc.symm)]
    rw [show rest.append (ch :: s₂) = rest ++ ch :: s₂ from rfl, ih h.2]

/-- With a well-formed `bytes=<s₁>-<s₂>` header on an existing file, the
handler reduces to `serveRange` at the parsed `start`/`end`. -/
theorem handle_bytesHeader (data : List Nat) (s₁ s₂ : List Char)
    (h₁ : '-' ∉ s₁) (h₂ : '-' ∉ s₂) :
    handleVideoRequest (some data) (some (bytesHeader s₁ s₂)) =
      serveRange data ((parseU64 s₁).getD 0)
        (if s₂ = [] then data.length - 1
         else min ((parseU64 s₂).getD (data.length - 1)) (data.length - 1)) := by
  have hsplit : splitOnChar '-' (s₁ ++ '-' :: s₂) = [s₁, s₂] := by
    rw [splitOnChar_append '-' s₁ s₂ h₁, splitOnChar_of_not_mem '-' s₂ h₂]
  simp only [handleVideoRequest, bytesHeader, stripBytesUnit, hsplit]

theorem parseU64_ne_nil {s : List Char} {n : Nat} (h : parseU64 s = some n) :
    s ≠ [] := by
  intro hs
  subst hs
  simp [parseU64] at h

/-- A successfully parsed `u64` field is below `2^64`. -/
theorem parseU64_lt {s : List Char} {n : Nat} (h : parseU64 s = some n) :
    n < two64 := by
  simp only [parseU64] at h
  split at h
  · exact absurd h (by simp)
  · split at h
    · split at h
      · simp only [Option.some.injEq] at h
        omega
      · exact absurd h (by simp)
    · exact absurd h (by simp)

end RangeServerLemmas

/-- C1: for every existing file and every byte interval `(start, end)` with
`start ≤ end ≤ file_size - 1`, a request with header
`Range: bytes=<start>-<end>` returns status 206 whose body is exactly
`end - start + 1` bytes, equal to the slice `[start, end]` of the file, with
a `Content-Range: bytes <start>-<end>/<file_size>` header. -/
theorem clipforge_c1_range_exact (data : List Nat) (s₁ s₂ : List Char)
    (start e : Nat) (hsize : data.length < two64)
    (h₁ : parseU64 s₁ = some start) (h₂ : parseU64 s₂ = some e)
    (d₁ : '-' ∉ s₁) (d₂ : '-' ∉ s₂)
    (hse : start ≤ e) (hef : e < data.length) :
    handleVideoRequest (some data) (some (bytesHeader s₁ s₂)) =
      ⟨206, true, some (start, e, data.length), some (e - start + 1), true,
        true, (data.drop start).take (e - start + 1)⟩ ∧
    ((data.drop start).take (e - start + 1)).length = e - start + 1 := by
  have hne : s₂ ≠ [] := parseU64_ne_nil h₂
  have hmin : min e (data.length - 1) = e := min_eq_left (by omega)
  have hsub : sub64 e start = e - start := by
    unfold sub64
    rw [Nat.mod_eq_of_lt (by omega : start < two64)]
    rw [show e + two64 - start = two64 + (e - start) by omega]
    rw [Nat.add_mod_left, Nat.mod_eq_of_lt (by omega)]
  have hcl : (sub64 e start + 1) % two64 = e - start + 1 := by
    rw [hsub, Nat.mod_eq_of_lt (by omega)]
  constructor
  · rw [handle_bytesHeader data s₁ s₂ d₁ d₂, h₁, h₂]
    simp only [Option.getD_some, if_neg hne, hmin]
    simp only [serveRange]
    rw [hcl]
    simp only [readExact]
    rw [if_neg (by omega : ¬(e - start + 1 = 0)),
      if_pos (by omega : start + (e - start + 1) ≤ data.length)]
  · rw [List.length_take, List.length_drop]
    omega

theorem clipforge_c1_witness :
    handleVideoRequest (some [10, 20, 30, 40, 50])
        (some (bytesHeader ['1'] ['3'])) =
      ⟨206, true, some (1, 3, 5), some 3, true, true, [20, 30, 40]⟩ ∧
    (([10, 20, 30, 40, 50].drop 1).take 3).length = 3 := by
  have h := clipforge_c1_range_exact [10, 20, 30, 40, 50] ['1'] ['3'] 1 3
    (by decide) (by decide) (by decide) (by decide) (by decide) (by decide)
    (by decide)
  exact h

/-- C7: an empty end field behaves identically to an explicit end equal to
`file_size - 1`; an end past the file is clamped to `file_size - 1` (same
response as an empty end); a malformed start field defaults to `0`; a
malformed end field defaults to `file_size - 1` (same response as an empty
end).  None of these fails the request. -/
theorem clipforge_c7_range_defaults :
    (∀ (data : List Nat) (s₁ s₂ : List Char), '-' ∉ s₁ → '-' ∉ s₂ →
      parseU64 s₂ = some (data.length - 1) →
      handleVideoRequest (some data) (some (bytesHeader s₁ [])) =
        handleVideoRequest (some data) (some (bytesHeader s₁ s₂))) ∧
    (∀ (data : List Nat) (s₁ s₂ : List Char) (ev : Nat), '-' ∉ s₁ →
      '-' ∉ s₂ → parseU64 s₂ = some ev → data.length ≤ ev →
      handleVideoRequest (some data) (some (bytesHeader s₁ s₂)) =
        handleVideoRequest (some data) (some (bytesHeader s₁ []))) ∧
    (∀ (data : List Nat) (s₁ s₂ : List Char), '-' ∉ s₁ → '-' ∉ s₂ →
      parseU64 s₁ = none →
      handleVideoRequest (some data) (some (bytesHeader s₁ s₂)) =
        handleVideoRequest (some data) (some (bytesHeader ['0'] s₂))) ∧
    (∀ (data : List Nat) (s₁ s₂ : List Char), '-' ∉ s₁ → '-' ∉ s₂ →
      parseU64 s₂ = none →
      handleVideoRequest (some data) (some (bytesHeader s₁ s₂)) =
        handleVideoRequest (some data) (some (bytesHeader s₁ []))) := by
  refine ⟨?_, ?_, ?_, ?_⟩
  · intro data s₁ s₂ hd₁ hd₂ hp
    have hne : s₂ ≠ [] := parseU64_ne_nil hp
    rw [handle_bytesHeader data s₁ [] hd₁ (by simp),
      handle_bytesHeader data s₁ s₂ hd₁ hd₂]
    rw [if_pos rfl, if_neg hne, hp]
    simp
  · intro data s₁ s₂ ev hd₁ hd₂ hp hge
    have hne : s₂ ≠ [] := parseU64_ne_nil hp
    rw [handle_bytesHeader data s₁ s₂ hd₁ hd₂,
      handle_bytesHeader data s₁ [] hd₁ (by simp)]
    rw [if_neg hne, if_pos rfl, hp]
    simp only [Option.getD_some]
    rw [min_eq_right (by omega)]
  · intro data s₁ s₂ hd₁ hd₂ hp
    rw [handle_bytesHeader data s₁ s₂ hd₁ hd₂,
      handle_bytesHeader data ['0'] s₂ (by decide) hd₂]
    rw [hp, show parseU64 ['0'] = some 0 from by decide]
    rfl
  · intro data s₁ s₂ hd₁ hd₂ hp
    by_cases hne : s₂ = []
    · subst hne; rfl
    · rw [handle_bytesHeader data s₁ s₂ hd₁ hd₂,
        handle_bytesHeader data s₁ [] hd₁ (by simp)]
      rw [if_neg hne, if_pos rfl, hp]
      simp

theorem clipforge_c7_witness :
    (handleVideoRequest (some [1, 2, 3]) (some (bytesHeader ['1'] [])) =
      handleVideoRequest (some [1, 2, 3]) (some (bytesHeader ['1'] ['2']))) ∧
    (handleVideoRequest (some [1, 2, 3]) (some (bytesHeader ['1'] ['9'])) =
      handleVideoRequest (some [1, 2, 3]) (some (bytesHeader ['1'] []))) ∧
    (handleVideoRequest (some [1, 2, 3]) (some (bytesHeader ['x'] ['1'])) =
      handleVideoRequest (some [1, 2, 3]) (some (bytesHeader ['0'] ['1']))) ∧
    (handleVideoRequest (some [1, 2, 3]) (some (bytesHeader ['1'] ['y'])) =
      handleVideoRequest (some [1, 2, 3]) (some (bytesHeader ['1'] []))) := by
  refine ⟨?_, ?_, ?_, ?_⟩
  · exact clipforge_c7_range_defaults.1 [1, 2, 3] ['1'] ['2'] (by decide)
      (by decide) (by decide)
  · exact clipforge_c7_range_defaults.2.1 [1, 2, 3] ['1'] ['9'] 9 (by decide)
      (by decide) (by decide) (by decide)
  · exact clipforge_c7_range_defaults.2.2.1 [1, 2, 3] ['x'] ['1'] (by decide)
      (by decide) (by decide)
  · exact clipforge_c7_range_defaults.2.2.2 [1, 2, 3] ['1'] ['y'] (by decide)
      (by decide) (by decide)

/-- C10: a `Range` header whose value after `bytes=` does not split into
exactly two fields at `'-'` is silently ignored: for an existing file the
server returns the entire file with status 200. -/
theorem clipforge_c10_ignored_split (data : List Nat) (s : List Char)
    (h : (splitOnChar '-' s).length ≠ 2) :
    handleVideoRequest (some data) (some (bytesHeaderRaw s)) =
      fullResp data := by
  rcases hs : splitOnChar '-' s with _ | ⟨a, rest⟩
  · simp [handleVideoRequest, bytesHeaderRaw, stripBytesUnit, hs]
  · rcases rest with _ | ⟨b, rest2⟩
    · simp [handleVideoRequest, bytesHeaderRaw, stripBytesUnit, hs]
    · rcases rest2 with _ | ⟨c, rest3⟩
      · rw [hs] at h; simp at h
      · simp [handleVideoRequest, bytesHeaderRaw, stripBytesUnit, hs]

theorem clipforge_c10_witness :
    handleVideoRequest (some [7, 8]) (some (bytesHeaderRaw ['5'])) =
      fullResp [7, 8] :=
  clipforge_c10_ignored_split [7, 8] ['5'] (by decide)

section Prober

/-!
## Metadata Prober

Embedding of `probe_video_metadata` (lib.rs:134-199) from the point where
the ffprobe JSON output has been parsed (the claim under study presupposes
parseable structured output).  The `format.duration` field is modeled by
`Option (Option ℚ)`: `none` when the field is absent or not a JSON string,
`some none` when the string does not parse as a number, `some (some q)`
when it parses to the value `q`.
-/

/-- One entry of the ffprobe `streams` array: its `codec_type` string and
its optional integer `width`/`height` fields (`none` when absent or not
representable as `u64`). -/
structure FFStream where
  codec_type : List Char
  width : Option Nat
  height : Option Nat
deriving DecidableEq

/-- The parsed ffprobe output: the `format.duration` field and the
`streams` array (`none` when the output has no streams array). -/
structure FFProbeJson where
  duration : Option (Option ℚ)
  streams : Option (List FFStream)
deriving DecidableEq

/-- The `codec_type == "video"` test (lib.rs:188). -/
def isVideoStream (s : FFStream) : Bool := decide (s.codec_type = cl "video")

/-- The duration extraction (lib.rs:168-174): the format duration string
parsed as a number, with fallback `0.0` when absent or unparseable. -/
def durationOfJson (j : FFProbeJson) : ℚ :=
  match j.duration with
  | some (some q) => q
  | _ => 0

/-- Embeds `probe_video_metadata` (lib.rs:161-199), after JSON parsing: duration
from the format section with fallback `0.0`, resolution from the first
video-typed stream with fallbacks `1920`/`1080`, erroring when there is no
streams array or no video-typed stream. -/
def probe_video_metadata (j : FFProbeJson) :
    Except (List Char) (ℚ × Nat × Nat) :=
  let duration : ℚ := durationOfJson j
  match j.streams with
  | none => .error (cl "No streams found in video")
  | some streams =>
    match streams.find? isVideoStream with
    | none => .error (cl "No video stream found")
    | some video_stream =>
      .ok (duration, video_stream.width.getD 1920,
        video_stream.height.getD 1080)

end Prober

/-- C8: when the parsed ffprobe output has a video-typed stream, the
duration falls back to `0` when the format duration is absent or
unparseable, the width falls back to `1920` and the height to `1080` when
the video stream lacks those fields; when no video-typed stream exists the
probe fails with the no-video-stream error. -/
theorem clipforge_c8_probe_defaults :
    (∀ (j : FFProbeJson) (ss : List FFStream) (vs : FFStream),
      j.streams = some ss → ss.find? isVideoStream = some vs →
      (j.duration = none ∨ j.duration = some none) →
      probe_video_metadata j =
        .ok (0, vs.width.getD 1920, vs.height.getD 1080)) ∧
    (∀ (j : FFProbeJson) (ss : List FFStream) (vs : FFStream),
      j.streams = some ss → ss.find? isVideoStream = some vs →
      vs.width = none →
      probe_video_metadata j =
        .ok (durationOfJson j, 1920, vs.height.getD 1080)) ∧
    (∀ (j : FFProbeJson) (ss : List FFStream) (vs : FFStream),
      j.streams = some ss → ss.find? isVideoStream = some vs →
      vs.height = none →
      probe_video_metadata j =
        .ok (durationOfJson j, vs.width.getD 1920, 1080)) ∧
    (∀ (j : FFProbeJson) (ss : List FFStream),
      j.streams = some ss → ss.find? isVideoStream = none →
      probe_video_metadata j = .error (cl "No video stream found")) := by
  refine ⟨?_, ?_, ?_, ?_⟩
  · intro j ss vs hs hv hd
    rcases hd with hd | hd <;>
      simp [probe_video_metadata, durationOfJson, hs, hv, hd]
  · intro j ss vs hs hv hw
    simp [probe_video_metadata, hs, hv, hw]
  · intro j ss vs hs hv hh
    simp [probe_video_metadata, hs, hv, hh]
  · intro j ss hs hv
    simp [probe_video_metadata, hs, hv]

theorem clipforge_c8_witness :
    (probe_video_metadata ⟨some none, some [⟨cl "video", none, none⟩]⟩ =
      .ok (0, 1920, 1080)) ∧
    (probe_video_metadata ⟨some (some 7), some [⟨cl "audio", some 2, none⟩]⟩ =
      .error (cl "No video stream found")) := by
  constructor
  · exact clipforge_c8_probe_defaults.1 ⟨some none, some [⟨cl "video", none, none⟩]⟩
      [⟨cl "video", none, none⟩] ⟨cl "video", none, none⟩ rfl (by decide)
      (Or.inr rfl)
  · exact clipforge_c8_probe_defaults.2.2.2
      ⟨some (some 7), some [⟨cl "audio", some 2, none⟩]⟩
      [⟨cl "audio", some 2, none⟩] rfl (by decide)

section Recording

/-!
## Recording Session Controller

Embedding of `start_recording` (lib.rs:941-1358) and `stop_recording`
(lib.rs:1360-1432).  The recording slot `RecordingState.process` is an
explicit `Option ChildRec` value threaded through the functions; a
`ChildRec` is a spawned child handle carrying, as oracle data, the outcome
the blocking `wait()` will produce and the stderr text still attached to
the handle.  The ffmpeg command-line synthesis (pure argument building,
lib.rs:950-1311) does not affect the slot or the results the claims are
about and is elided; the spawn outcome, the 500 ms liveness poll, the
blocking `wait`, and the stderr are environment inputs.  The macOS build is
modeled (`screen`/`webcam`/`combo` are the valid modes). -/

/-- A Unix process exit status: exited with a code, or terminated by a
signal. -/
inductive ExitSt where
  | exited (code : Nat)
  | signaled (sig : Nat)
deriving DecidableEq

/-- Embeds `ExitStatus::code()`: the exit code when the process exited
normally. -/
def ExitSt.codeOf : ExitSt → Option Nat
  | .exited c => some c
  | .signaled _ => none

/-- Embeds `ExitStatus::signal()`: the signal when the process was terminated by
one. -/
def ExitSt.signalOf : ExitSt → Option Nat
  | .exited _ => none
  | .signaled s => some s

/-- Embeds `ExitStatus::success()`: exit code zero. -/
def ExitSt.successB (s : ExitSt) : Bool := decide (s.codeOf = some 0)

/-- Rendering of `ExitStatus` by `Display` (the exact text is irrelevant to
the claims). -/
def showExitSt : ExitSt → List Char
  | .exited c => cl "exit status: " ++ digitsOf c
  | .signaled s => cl "signal: " ++ digitsOf s

/-- A spawned child handle: the outcome the blocking `wait()` will produce
at stop time, and the stderr text still attached to the handle (`none` when
the handle has no stderr or reading it fails). -/
structure ChildRec where
  waitResult : Except (List Char) ExitSt
  stderrTxt : Option (List Char)

/-- Environment of one `start_recording` call: the requested mode, the
`spawn()` outcome (`none` plus message on failure, `some child` on
success) and the 500 ms-later `try_wait()` poll (`some txt` when the child
already exited, with rendered status `txt`). -/
structure StartEnv where
  mode : List Char
  spawnRes : Option ChildRec
  spawnErrMsg : List Char
  earlyExit : Option (List Char)

/-- Result of a start call: the command's `Result` and the recording slot
afterwards; `spawned` records whether `cmd.spawn()` was invoked. -/
structure StartOutcome where
  result : Except (List Char) (List Char)
  slot : Option ChildRec
  spawned : Bool

/-- The conflict message of lib.rs:947. -/
def conflictMsg : List Char := cl "Recording already in progress"

/-- The recognized capture modes of the macOS build (lib.rs:983-1140). -/
def validMode (m : List Char) : Bool :=
  decide (m = cl "screen") || decide (m = cl "webcam") || decide (m = cl "combo")

/-- Embeds `start_recording` (lib.rs:941-1358): reject when the slot is occupied;
otherwise build the command (elided), rejecting unknown modes before any
spawn; spawn; poll liveness once after the grace period, failing when the
child already exited; otherwise store the handle. -/
def start_recording (slot : Option ChildRec) (env : StartEnv) : StartOutcome :=
  match slot with
  | some child => ⟨.error conflictMsg, some child, false⟩
  | none =>
    if validMode env.mode then
      match env.spawnRes with
      | none =>
        ⟨.error (cl "Failed to start FFmpeg recording: " ++ env.spawnErrMsg ++
          cl ". Make sure FFmpeg is installed."), none, true⟩
      | some child =>
        match env.earlyExit with
        | some statusTxt =>
          ⟨.error (cl "FFmpeg exited immediately with status: " ++ statusTxt),
            none, true⟩
        | none => ⟨.ok (cl "Recording started"), some child, true⟩
    else ⟨.error (cl "Invalid recording mode"), none, false⟩

/-- Embeds `is_normal_exit` (lib.rs:1387-1391): success, exit code 255, or
terminated by SIGINT (signal 2). -/
def is_normal_exit (status : ExitSt) : Bool :=
  decide (status.codeOf = some 255) || decide (status.signalOf = some 2) ||
    status.successB

/-- The dedicated permission-denial message (lib.rs:1405). -/
def permissionMsg : List Char :=
  cl "Recording failed: Screen recording permission denied. Please grant permission in System Settings > Privacy & Security > Screen Recording"

/-- The dedicated invalid-device message (lib.rs:1408). -/
def invalidDeviceMsg : List Char :=
  cl "Recording failed: Invalid audio device selected"

/-- The generic failure message (lib.rs:1415). -/
def genericStopMsg (status : ExitSt) : List Char :=
  cl "Recording failed with status: " ++ showExitSt status ++
    cl ". Check the logs for details."

/-- The abnormal-exit diagnostic classification (lib.rs:1396-1415):
substring checks on the stderr text, in order, falling back to the generic
message. -/
def classifyStopError (status : ExitSt) (stderrTxt : Option (List Char)) :
    List Char :=
  match stderrTxt with
  | some t =>
    if containsSub t (cl "not permitted") ||
        containsSub t (cl "Operation not permitted") then permissionMsg
    else if containsSub t (cl "Invalid device") then invalidDeviceMsg
    else if containsSub t (cl "Error") &&
        !containsSub t (cl "Exiting normally") then
      cl "Recording failed: " ++
        ((rustLines t).find? (fun l => containsSub l (cl "Error"))).getD
          (cl "Unknown error")
    else genericStopMsg status
  | none => genericStopMsg status

/-- Result of a `stop_recording` call: the command's `Result` and the
recording slot afterwards. -/
structure StopOutcome where
  result : Except (List Char) (List Char)
  slot : Option ChildRec

/-- Embeds `stop_recording` (lib.rs:1360-1432): `take()` the handle (emptying the
slot), signal SIGINT, block on `wait`, classify the exit, with a distinct
error when no recording is active. -/
def stop_recording (slot : Option ChildRec) : StopOutcome :=
  match slot with
  | none => ⟨.error (cl "No active recording"), none⟩
  | some child =>
    match child.waitResult with
    | .error e =>
      ⟨.error (cl "Failed to stop recording cleanly: " ++ e), none⟩
    | .ok status =>
      if is_normal_exit status then ⟨.ok (cl "Recording stopped"), none⟩
      else ⟨.error (classifyStopError status child.stderrTxt), none⟩

/-- Boolean success test on an embedded `Result`. -/
def resultIsOk (r : Except (List Char) (List Char)) : Bool :=
  match r with
  | .ok _ => true
  | .error _ => false

end Recording

/-- C4: whenever the recording slot holds a live process handle, a
`start_recording` call fails synchronously with the conflict error, spawns
no process, and leaves the stored handle unchanged. -/
theorem clipforge_c4_start_conflict (child : ChildRec) (env : StartEnv) :
    start_recording (some child) env =
      ⟨.error conflictMsg, some child, false⟩ := rfl

/-- C5: on an active recording, the exit is classified as normal exactly
when the process exited with code 0 (success), exited with code 255, or was
terminated by signal 2 (SIGINT); any other exit yields a failure, whose
message is the dedicated permission-denial or invalid-device message when
the stderr text contains the corresponding substrings. -/
theorem clipforge_c5_stop_classification (child : ChildRec) (status : ExitSt)
    (hw : child.waitResult = .ok status) :
    (resultIsOk (stop_recording (some child)).result = true ↔
      (status = .exited 0 ∨ status = .exited 255 ∨ status = .signaled 2)) ∧
    (is_normal_exit status = false →
      resultIsOk (stop_recording (some child)).result = false) ∧
    (∀ t : List Char, is_normal_exit status = false →
      child.stderrTxt = some t →
      (containsSub t (cl "not permitted") ||
        containsSub t (cl "Operation not permitted") ||
        containsSub t (cl "Invalid device")) = true →
      (stop_recording (some child)).result = .error permissionMsg ∨
      (stop_recording (some child)).result = .error invalidDeviceMsg) := by
  have hnorm : is_normal_exit status = true ↔
      (status = .exited 0 ∨ status = .exited 255 ∨ status = .signaled 2) := by
    cases status <;>
      simp only [is_normal_exit, ExitSt.codeOf, ExitSt.signalOf,
        ExitSt.successB, Bool.or_eq_true, decide_eq_true_eq,
        Option.some.injEq, ExitSt.exited.injEq, ExitSt.signaled.injEq,
        reduceCtorEq, or_false, false_or]
    tauto
  refine ⟨?_, ?_, ?_⟩
  · rw [← hnorm]
    simp only [stop_recording, hw]
    by_cases hn : is_normal_exit status
    · simp [hn, resultIsOk]
    · simp only [Bool.not_eq_true] at hn
      simp [hn, resultIsOk]
  · intro hn
    simp [stop_recording, hw, hn, resultIsOk]
  · intro t hn ht hsub
    simp only [stop_recording, hw, hn, Bool.false_eq_true, if_false,
      classifyStopError, ht]
    simp only [Bool.or_eq_true] at hsub
    rcases hsub with (h1 | h2) | h3
    · left; rw [if_pos (by simp [h1])]
    · left; rw [if_pos (by simp [h2])]
    · by_cases hp : (containsSub t (cl "not permitted") ||
        containsSub t (cl "Operation not permitted")) = true
      · left; rw [if_pos hp]
      · right
        rw [if_neg (by simpa using hp), if_pos h3]

theorem clipforge_c5_witness :
    (resultIsOk
        (stop_recording (some ⟨.ok (.exited 1),
          some (cl "x Invalid device y")⟩)).result = true ↔
      ((ExitSt.exited 1) = .exited 0 ∨ (ExitSt.exited 1) = .exited 255 ∨
        (ExitSt.exited 1) = .signaled 2)) ∧
    ((stop_recording (some ⟨.ok (.exited 1),
        some (cl "x Invalid device y")⟩)).result = .error permissionMsg ∨
     (stop_recording (some ⟨.ok (.exited 1),
        some (cl "x Invalid device y")⟩)).result = .error invalidDeviceMsg) := by
  have h := clipforge_c5_stop_classification
    ⟨.ok (.exited 1), some (cl "x Invalid device y")⟩ (.exited 1) rfl
  exact ⟨h.1, h.2.2 (cl "x Invalid device y") (by decide) rfl (by decide)⟩

/-- C9: after a `stop_recording` call that found an active recording, the
slot is empty regardless of the outcome, so a subsequent `start_recording`
is never rejected with the conflict error. -/
theorem clipforge_c9_slot_released (child : ChildRec) (env : StartEnv) :
    (stop_recording (some child)).slot = none ∧
    (start_recording (stop_recording (some child)).slot env).result ≠
      .error conflictMsg := by
  have hslot : (stop_recording (some child)).slot = none := by
    simp only [stop_recording]
    rcases hr : child.waitResult with e | status
    · rfl
    · by_cases hn : is_normal_exit status <;> simp [hn]
  refine ⟨hslot, ?_⟩
  rw [hslot]
  simp only [start_recording]
  by_cases hv : validMode env.mode
  · rw [if_pos hv]
    rcases env.spawnRes with _ | child2
    · intro h
      simp only [Except.error.injEq] at h
      have := congrArg List.length h
      simp [conflictMsg, cl] at this
    · rcases env.earlyExit with _ | txt
      · simp
      · intro h
        simp only [Except.error.injEq] at h
        have := congrArg (List.take 6) h
        simp [conflictMsg, cl] at this
  · rw [if_neg hv]
    intro h
    simp only [Except.error.injEq] at h
    have := congrArg List.length h
    simp [conflictMsg, cl] at this

section ExportPipeline

/-!
## Clip Export Pipeline

Embedding of `export_multi_clip` (lib.rs:482-801) and the single-clip
delegate `export_video` (lib.rs:384-454).  All pure computation — trim
rounding, the independent-audio-trim flag, the filter-graph strings and
the synthesized argument lists — is embedded directly from the source.
External effects are oracle inputs: per clip, the audio-stream probe, the
fallback duration probe and the encoding run; for the job, the
manifest-file creation/write outcomes and the concatenation run.  The
filesystem state the claims are about is tracked explicitly: the set of
temp-clip files on disk (by clip index) and whether the concat manifest
file exists.  Rendering of `f64` values into command strings (Rust
`Display` and `{:.3}` formatting) is abstracted as a `NumFmt` parameter;
no claim inspects a rendered number. -/

/-- Embeds `ClipSegment` (lib.rs:456-467). -/
structure ClipSegment where
  input_path : List Char
  trim_start : Option ℚ
  trim_end : Option ℚ
  audio_trim_start : Option ℚ
  audio_trim_end : Option ℚ
  is_video_muted : Option Bool
  is_audio_muted : Option Bool
  is_audio_linked : Option Bool
  audio_offset : Option ℚ
deriving DecidableEq

/-- Abstracted numeric rendering: `showNum` is `f64` `Display` (`format!`
with a bare placeholder), `show3` is `format!` with `.3` precision. -/
structure NumFmt where
  showNum : ℚ → List Char
  show3 : ℚ → List Char

/-- Embeds `i64` `Display` rendering. -/
def showIntC (i : ℤ) : List Char :=
  if i < 0 then '-' :: digitsOf i.natAbs else digitsOf i.natAbs

/-- Embeds `let trim_start = clip.trim_start.map(round_to_millis)`
(lib.rs:530). -/
def rTrimStart (c : ClipSegment) : Option ℚ := c.trim_start.map round_to_millis

/-- Embeds `let trim_end = clip.trim_end.map(round_to_millis)` (lib.rs:531). -/
def rTrimEnd (c : ClipSegment) : Option ℚ := c.trim_end.map round_to_millis

/-- Embeds `clip.audio_trim_start.or(trim_start).map(round_to_millis)`
(lib.rs:532), where `trim_start` is already rounded. -/
def rAudioTrimStart (c : ClipSegment) : Option ℚ :=
  (c.audio_trim_start.or (rTrimStart c)).map round_to_millis

/-- Embeds `clip.audio_trim_end.or(trim_end).map(round_to_millis)`
(lib.rs:533). -/
def rAudioTrimEnd (c : ClipSegment) : Option ℚ :=
  (c.audio_trim_end.or (rTrimEnd c)).map round_to_millis

/-- Embeds `has_independent_audio_trim` (lib.rs:568): the resolved audio window
differs from the resolved video window. -/
def hasIndepAudioTrim (c : ClipSegment) : Bool :=
  decide (rAudioTrimStart c ≠ rTrimStart c) ||
    decide (rAudioTrimEnd c ≠ rTrimEnd c)

/-- The video branch of the filter graph (lib.rs:614-629), returning the
filter string and the value of the mutable `needs_filter` flag after this
branch. -/
def videoFilterNF (fmt : NumFmt) (c : ClipSegment) (duration : ℚ)
    (nf : Bool) : List Char × Bool :=
  if c.is_video_muted.getD false then
    (cl "color=c=black:s=1920x1080:d=" ++ fmt.show3 duration ++
      cl ",fps=30[v]", true)
  else if hasIndepAudioTrim c then
    (match rTrimStart c, rTrimEnd c with
     | some s, some e =>
       cl "[0:v]trim=start=" ++ fmt.showNum s ++ cl ":end=" ++
         fmt.showNum e ++ cl ",setpts=PTS-STARTPTS[v]"
     | _, _ => cl "[0:v]null[v]", true)
  else (cl "[0:v]null[v]", nf)

/-- The audio branch of the filter graph (lib.rs:632-678), returning the
filter string and the value of `needs_filter` after this branch (every
branch of the source sets it to `true`, including the pass-through branch
at lib.rs:669-672). -/
def audioFilterNF (fmt : NumFmt) (c : ClipSegment) (has_audio : Bool)
    (duration : ℚ) (_nf : Bool) : List Char × Bool :=
  if !has_audio || c.is_audio_muted.getD false then
    (cl "anullsrc=channel_layout=stereo:sample_rate=44100:duration=" ++
      fmt.show3 duration ++ cl "[a]", true)
  else if hasIndepAudioTrim c then
    (match rAudioTrimStart c, rAudioTrimEnd c with
     | some s, some e =>
       let base := cl "[0:a]atrim=start=" ++ fmt.showNum s ++ cl ":end=" ++
         fmt.showNum e ++ cl ",asetpts=PTS-STARTPTS"
       let withDelay :=
         if !(c.is_audio_linked.getD true) &&
             decide (c.audio_offset.getD 0 ≠ 0) then
           (let delay_ms := roundAway (c.audio_offset.getD 0 * 1000)
            if 0 < delay_ms then
              base ++ cl ",adelay=" ++ showIntC delay_ms ++ cl "|" ++
                showIntC delay_ms
            else base)
         else base
       withDelay ++ cl "[a]"
     | _, _ => cl "[0:a]anull[a]", true)
  else if !(c.is_audio_linked.getD true) &&
      decide (c.audio_offset.getD 0 ≠ 0) then
    (let delay_ms := roundAway (c.audio_offset.getD 0 * 1000)
     if 0 < delay_ms then
       cl "[0:a]adelay=" ++ showIntC delay_ms ++ cl "|" ++
         showIntC delay_ms ++ cl "[a]"
     else if delay_ms < 0 then
       cl "[0:a]atrim=start=" ++ fmt.showNum (-(c.audio_offset.getD 0)) ++
         cl "[a]"
     else cl "[0:a]anull[a]", true)
  else if has_audio then (cl "[0:a]anull[a]", true)
  else
    (cl "anullsrc=channel_layout=stereo:sample_rate=44100:duration=" ++
      fmt.showNum duration ++ cl "[a]", true)

/-- The temp file name for clip `i` (lib.rs:525; the temp-dir prefix is
elided). -/
def tempFileName (i : Nat) : List Char :=
  cl "clipforge_temp_" ++ digitsOf i ++ cl ".mp4"

/-- The synthesized per-clip ffmpeg argument list (lib.rs:558-702): input,
the whole-file trim when the audio trim is not independent, the filter
graph and `[v]`/`[a]` mapping when the `needs_filter` condition of
lib.rs:681 holds (direct `0:v`/`0:a` mapping otherwise), and the
re-encoding output options. -/
def buildClipCmd (fmt : NumFmt) (i : Nat) (c : ClipSegment)
    (has_audio : Bool) (duration : ℚ) : List (List Char) :=
  let trimArgs : List (List Char) :=
    if hasIndepAudioTrim c then []
    else
      match rTrimStart c, rTrimEnd c with
      | some s, some e =>
        [cl "-ss", fmt.showNum s, cl "-t",
          fmt.showNum (round_to_millis (e - s))]
      | _, _ => []
  let vres := videoFilterNF fmt c duration (hasIndepAudioTrim c)
  let ares := audioFilterNF fmt c has_audio duration vres.2
  let mapArgs : List (List Char) :=
    if ares.2 || c.is_video_muted.getD false || c.is_audio_muted.getD false ||
        (!(c.is_audio_linked.getD true) &&
          decide (c.audio_offset.getD 0 ≠ 0)) || !has_audio then
      [cl "-filter_complex", joinSep (cl ";") [vres.1, ares.1],
       cl "-map", cl "[v]", cl "-map", cl "[a]"]
    else [cl "-map", cl "0:v"] ++
      (if has_audio then [cl "-map", cl "0:a"] else [])
  [cl "-i", c.input_path] ++ trimArgs ++ mapArgs ++
    [cl "-c:v", cl "libx264", cl "-preset", cl "ultrafast", cl "-crf",
      cl "23", cl "-c:a", cl "aac", cl "-b:a", cl "128k", cl "-y",
      tempFileName i]

/-- The per-clip error classification on a nonzero encoder exit
(lib.rs:719-740): known stderr substrings map to targeted messages naming
the 1-based clip index; otherwise at most three error-indicative stderr
lines are surfaced. -/
def classifyClipError (i : Nat) (stderr : List Char) : List Char :=
  if containsSub stderr (cl "Could not open encoder before EOF") ||
      containsSub stderr (cl "Invalid argument") then
    cl "Failed to process clip " ++ digitsOf (i + 1) ++
      cl " due to audio/video sync issues. This can happen with very short clips or corrupted files. Try adjusting the clip boundaries slightly."
  else if containsSub stderr (cl "No such file or directory") then
    cl "Clip " ++ digitsOf (i + 1) ++
      cl " file not found. The source video may have been moved or deleted."
  else if containsSub stderr (cl "Invalid data found") then
    cl "Clip " ++ digitsOf (i + 1) ++
      cl " appears to be corrupted or in an unsupported format."
  else if containsSub stderr (cl "Permission denied") then
    cl "Permission denied while processing clip " ++ digitsOf (i + 1) ++
      cl ". Check file permissions."
  else
    let key_errors := ((rustLines stderr).filter fun l =>
      containsSub l (cl "Error") || containsSub l (cl "failed") ||
        containsSub l (cl "Invalid")).take 3
    if !key_errors.isEmpty then
      cl "Failed to process clip " ++ digitsOf (i + 1) ++ cl ": " ++
        joinSep (cl "; ") key_errors
    else
      cl "Failed to process clip " ++ digitsOf (i + 1) ++
        cl ". Check the logs for details."

/-- A `merge-progress` event payload (lib.rs:475-480). -/
structure MergeProgress where
  current : Nat
  total : Nat
  status : List Char
deriving DecidableEq

/-- Outcome of one external ffmpeg run: success, nonzero exit with stderr
text, or failure to execute the binary at all. -/
inductive EncodeRes where
  | ok
  | fail (stderr : List Char)
  | execErr (msg : List Char)
deriving DecidableEq

/-- Oracle data for clip `i` of a multi-clip job: the audio-stream probe
execution outcome (lib.rs:537-546) and its parsed has-audio answer
(lib.rs:552-554), the fallback duration probe execution outcome
(lib.rs:591-598) and its parsed value (parse failure already folded to
`0.0`, lib.rs:600-603), and the encoder run outcome (lib.rs:706-743). -/
structure ClipEnvR where
  probeExec : Option (List Char)
  hasAudio : Bool
  durProbeExec : Option (List Char)
  durParsed : ℚ
  encode : EncodeRes
deriving DecidableEq

/-- Embeds `format!("Failed to probe clip {}: {}", i, e)` (lib.rs:546, 598) —
note: 0-based index. -/
def probeFailMsg (i : Nat) (e : List Char) : List Char :=
  cl "Failed to probe clip " ++ digitsOf i ++ cl ": " ++ e

/-- Embeds `format!("Failed to execute FFmpeg for clip {}: {}", i, e)`
(lib.rs:707) — note: 0-based index. -/
def ffmpegExecFailMsg (i : Nat) (e : List Char) : List Char :=
  cl "Failed to execute FFmpeg for clip " ++ digitsOf i ++ cl ": " ++ e

/-- The per-clip progress status text (lib.rs:522). -/
def processingMsg (cur total : Nat) : List Char :=
  cl "Processing clip " ++ digitsOf cur ++ cl " of " ++ digitsOf total ++
    cl "..."

/-- The initial progress status text (lib.rs:494). -/
def startingMsg : List Char := cl "Starting merge..."

/-- The concatenation progress status text (lib.rs:767). -/
def mergingMsg : List Char := cl "Merging clips together..."

/-- Result of the per-clip loop: success with the list of temp files
written (and the progress events so far), or an error message together
with the temp files still on disk at that point. -/
inductive LoopOut where
  | ok (temps : List Nat) (prog : List MergeProgress)
  | fail (msg : List Char) (disk : List Nat) (prog : List MergeProgress)

/-- The clip-duration resolution (lib.rs:583-607): `end - start` of the
rounded video window when trimmed, otherwise the (fallible) duration probe,
millisecond-rounded either way. -/
def durResOf (c : ClipSegment) (e : ClipEnvR) (i : Nat) :
    Except (List Char) ℚ :=
  match rTrimStart c, rTrimEnd c with
  | some s, some e2 => .ok (round_to_millis (e2 - s))
  | _, _ =>
    match e.durProbeExec with
    | some er => .error (probeFailMsg i er)
    | none => .ok (round_to_millis e.durParsed)

/-- The per-clip loop of `export_multi_clip` (lib.rs:517-746), processing
the remaining clips starting at absolute index `i` with `temps` the temp
files created so far: emit progress, probe for audio, resolve the clip
duration (probing when untrimmed), synthesize the command, run the
encoder.  A nonzero encoder exit deletes all earlier temp files and
returns the classified message; a probe or encoder execution error
propagates via `?` without any cleanup.  A failed encode is taken not to
have created its output file. -/
def processClips (fmt : NumFmt) (env : Nat → ClipEnvR) (total : Nat) :
    List ClipSegment → Nat → List Nat → List MergeProgress → LoopOut
  | [], _, temps, prog => .ok temps prog
  | clip :: rest, i, temps, prog =>
    let prog2 := prog ++ [⟨i + 1, total, processingMsg (i + 1) total⟩]
    match (env i).probeExec with
    | some e => .fail (probeFailMsg i e) temps prog2
    | none =>
      let has_audio := (env i).hasAudio
      match durResOf clip (env i) i with
      | .error m => .fail m temps prog2
      | .ok duration =>
        let _cmd := buildClipCmd fmt i clip has_audio duration
        match (env i).encode with
        | .execErr e => .fail (ffmpegExecFailMsg i e) temps prog2
        | .fail s => .fail (classifyClipError i s) [] prog2
        | .ok => processClips fmt env total rest (i + 1) (temps ++ [i]) prog2

/-- Embeds `ExportOptions` (lib.rs:376-382). -/
structure ExportOptions where
  input_path : List Char
  output_path : List Char
  trim_start : Option ℚ
  trim_end : Option ℚ
deriving DecidableEq

/-- Oracle data for `export_video`: input existence, the audio probe
outcome and answer, and the encoder run outcome. -/
structure SingleEnv where
  inputExists : Bool
  probeExec : Option (List Char)
  hasAudio : Bool
  encode : EncodeRes
deriving DecidableEq

/-- Embeds `export_video` (lib.rs:384-454): the single-clip export path, which
creates no temp files and emits no progress. -/
def export_video (fmt : NumFmt) (options : ExportOptions)
    (senv : SingleEnv) : Except (List Char) (List Char) :=
  if !senv.inputExists then .error (cl "Input file does not exist")
  else
    match senv.probeExec with
    | some e => .error (cl "Failed to probe input: " ++ e)
    | none =>
      let _cmd : List (List Char) :=
        [cl "-i", options.input_path] ++
        (match options.trim_start, options.trim_end with
         | some s, some e =>
           [cl "-ss", fmt.showNum s, cl "-t", fmt.showNum (e - s)]
         | _, _ => []) ++
        [cl "-c:v", cl "libx264", cl "-preset", cl "fast", cl "-crf",
          cl "23"] ++
        (if senv.hasAudio then [cl "-c:a", cl "aac", cl "-b:a", cl "128k"]
         else []) ++
        [cl "-y", options.output_path]
      match senv.encode with
      | .execErr e =>
        .error (cl "Failed to execute FFmpeg. Make sure FFmpeg is installed. Error: " ++ e)
      | .fail s => .error (cl "FFmpeg export failed: " ++ s)
      | .ok => .ok options.output_path

/-- Oracle data for the manifest/concatenation phase: the
`File::create` outcome (lib.rs:750), the `writeln!` outcome (lib.rs:755),
the concat `Command::output()` execution outcome (lib.rs:783), and the
concat run's exit status and stderr. -/
structure ManifestEnv where
  createRes : Option (List Char)
  writeRes : Option (List Char)
  concatExec : Option (List Char)
  concatStatusOk : Bool
  concatStderr : List Char
deriving DecidableEq

/-- On-disk artifacts of an export job: the temp clip files (by index) and
whether the concat manifest file exists. -/
structure ExportFS where
  temps : List Nat
  manifest : Bool
deriving DecidableEq

/-- Result of `export_multi_clip`: the command's `Result`, the artifacts
left on disk, and the ordered progress events emitted. -/
structure ExportOut where
  result : Except (List Char) (List Char)
  fs : ExportFS
  progress : List MergeProgress

/-- Embeds `export_multi_clip` (lib.rs:482-801): reject an empty job, emit the
initial progress event, delegate a single-clip job to `export_video`,
otherwise run the per-clip loop, write the concat manifest, emit the
merge progress event, and run the stream-copy concatenation.  Temp files
and the manifest are deleted after the concat run; the error paths for
manifest creation/write and concat execution return beforehand, leaving
the temp files (and, after creation, the manifest) on disk. -/
def export_multi_clip (fmt : NumFmt) (clips : List ClipSegment)
    (output_path : List Char) (env : Nat → ClipEnvR) (senv : SingleEnv)
    (menv : ManifestEnv) : ExportOut :=
  match clips with
  | [] => ⟨.error (cl "No clips to export"), ⟨[], false⟩, []⟩
  | [clip] =>
    ⟨export_video fmt
        ⟨clip.input_path, output_path, clip.trim_start, clip.trim_end⟩ senv,
      ⟨[], false⟩, [⟨0, 1, startingMsg⟩]⟩
  | _ =>
    let prog0 : List MergeProgress := [⟨0, clips.length, startingMsg⟩]
    match processClips fmt env clips.length clips 0 [] prog0 with
    | .fail msg disk prog => ⟨.error msg, ⟨disk, false⟩, prog⟩
    | .ok temps prog =>
      match menv.createRes with
      | some e =>
        ⟨.error (cl "Failed to create concat file: " ++ e), ⟨temps, false⟩,
          prog⟩
      | none =>
        match menv.writeRes with
        | some e =>
          ⟨.error (cl "Failed to write to concat file: " ++ e),
            ⟨temps, true⟩, prog⟩
        | none =>
          let prog2 := prog ++ [⟨clips.length, clips.length, mergingMsg⟩]
          match menv.concatExec with
          | some e =>
            ⟨.error (cl "Failed to execute FFmpeg concat: " ++ e),
              ⟨temps, true⟩, prog2⟩
          | none =>
            if menv.concatStatusOk then ⟨.ok output_path, ⟨[], false⟩, prog2⟩
            else
              ⟨.error (cl "FFmpeg concat failed: " ++ menv.concatStderr),
                ⟨[], false⟩, prog2⟩

/-- A clip descriptor with every optional field absent. -/
def cDefault : ClipSegment :=
  ⟨cl "a.mp4", none, none, none, none, none, none, none, none⟩

/-- A rendering function whose output is irrelevant to the statements it
appears in. -/
def fmtTrivial : NumFmt := ⟨fun _ => [], fun _ => []⟩

/-- A per-clip oracle where every external step succeeds. -/
def envAllOk : Nat → ClipEnvR := fun _ => ⟨none, true, none, 0, .ok⟩

/-- A single-clip oracle where every external step succeeds. -/
def senvOk : SingleEnv := ⟨true, none, true, .ok⟩

/-- A manifest/concat oracle where every external step succeeds. -/
def menvOk : ManifestEnv := ⟨none, none, none, true, []⟩

/-- A manifest/concat oracle where creating the manifest file fails. -/
def menvCreateFail : ManifestEnv := ⟨some (cl "disk full"), none, none, true, []⟩

/-- A manifest/concat oracle where writing to the manifest file fails. -/
def menvWriteFail : ManifestEnv := ⟨none, some (cl "disk full"), none, true, []⟩

/-- All external steps of one loop iteration succeed for clip `c` under
oracle `e` (the duration probe only runs when the clip is untrimmed). -/
def clipStepOk (c : ClipSegment) (e : ClipEnvR) : Prop :=
  e.probeExec = none ∧
  (((rTrimStart c).isSome = true ∧ (rTrimEnd c).isSome = true) ∨
    e.durProbeExec = none) ∧
  e.encode = .ok

/-- The probe steps of one loop iteration succeed for clip `c` under
oracle `e`. -/
def clipProbePartOk (c : ClipSegment) (e : ClipEnvR) : Prop :=
  e.probeExec = none ∧
  (((rTrimStart c).isSome = true ∧ (rTrimEnd c).isSome = true) ∨
    e.durProbeExec = none)

end ExportPipeline

section ContainsLemmas

theorem startsWithL_self_append {α : Type} [DecidableEq α]
    (pat suf : List α) : startsWithL pat (pat ++ suf) = true := by
  induction pat with
  | nil => rfl
  | cons p ps ih => simp [startsWithL, ih]

theorem containsSub_nil_pat {α : Type} [DecidableEq α] (s : List α) :
    containsSub s [] = true := by
  cases s with
  | nil => rfl
  | cons c rest => simp [containsSub, startsWithL]

theorem containsSub_append {α : Type} [DecidableEq α]
    (pre pat suf : List α) : containsSub (pre ++ (pat ++ suf)) pat = true := by
  induction pre with
  | nil =>
    cases pat with
    | nil => simpa using containsSub_nil_pat suf
    | cons p ps =>
      have h := startsWithL_self_append (p :: ps) suf
      simp only [List.cons_append] at h
      simp only [List.nil_append, containsSub, List.append_eq, h,
        Bool.true_or]
  | cons c pre ih =>
    simp only [List.cons_append, containsSub, List.append_eq, ih,
      Bool.or_true]

theorem containsSub_shape {α : Type} [DecidableEq α]
    (p1 p2 pat suf : List α) :
    containsSub (p1 ++ p2 ++ pat ++ suf) pat = true := by
  have h := containsSub_append (p1 ++ p2) pat suf
  simpa [List.append_assoc] using h

end ContainsLemmas

/-- A clip with an audio stream, no mutes, linked audio and zero offset:
the conditions under which the spec expects plain stream copy. -/
def c3clip : ClipSegment :=
  ⟨cl "a.mp4", none, none, none, none, some false, some false, some true,
    some 0⟩

/-- C3 counterexample: for a clip with an audio stream, no video mute, no
audio mute, an audio trim window equal to the video trim window and no
unlinked nonzero offset, the synthesized command nevertheless contains a
`-filter_complex` filter graph — the claim that it contains no filter
graph and uses plain stream copy is false. -/
theorem clipforge_c3_counterexample :
    cl "-filter_complex" ∈ buildClipCmd fmtTrivial 0 c3clip true 5 := by
  decide

/-- C3 amended: for every clip with an audio stream, no video mute, no
audio mute, an audio trim window equal to the video trim window
(`has_independent_audio_trim` false) and no unlinked nonzero audio offset,
the synthesized per-clip command contains the pure pass-through filter
graph `[0:v]null[v];[0:a]anull[a]` with explicit `[v]`/`[a]` mapping, and
re-encodes with libx264 rather than stream-copying. -/
theorem clipforge_c3_passthrough (fmt : NumFmt) (i : Nat) (c : ClipSegment)
    (duration : ℚ)
    (hvm : c.is_video_muted.getD false = false)
    (ham : c.is_audio_muted.getD false = false)
    (hind : hasIndepAudioTrim c = false)
    (hoff : c.is_audio_linked.getD true = true ∨ c.audio_offset.getD 0 = 0) :
    containsSub (buildClipCmd fmt i c true duration)
      [cl "-filter_complex", cl "[0:v]null[v];[0:a]anull[a]",
        cl "-map", cl "[v]", cl "-map", cl "[a]"] = true ∧
    cl "libx264" ∈ buildClipCmd fmt i c true duration := by
  have hoffB : (!(c.is_audio_linked.getD true) &&
      decide (c.audio_offset.getD 0 ≠ 0)) = false := by
    rcases hoff with h | h <;> simp [h]
  have hv : videoFilterNF fmt c duration (hasIndepAudioTrim c) =
      (cl "[0:v]null[v]", hasIndepAudioTrim c) := by
    simp [videoFilterNF, hvm, hind]
  have ha : audioFilterNF fmt c true duration (hasIndepAudioTrim c) =
      (cl "[0:a]anull[a]", true) := by
    rcases hoff with h | h <;> simp [audioFilterNF, ham, hind, h]
  have hjoin : joinSep (cl ";") [cl "[0:v]null[v]", cl "[0:a]anull[a]"] =
      cl "[0:v]null[v];[0:a]anull[a]" := by decide
  constructor
  · simp only [buildClipCmd, hv, ha, hjoin, hvm, ham, hoffB, Bool.or_false,
      Bool.true_or, Bool.not_true, if_true]
    exact containsSub_shape _ _ _ _
  · simp only [buildClipCmd, hv, ha, hjoin, hvm, ham, hoffB, Bool.or_false,
      Bool.true_or, Bool.not_true, if_true]
    exact List.mem_append_right _ (List.Mem.tail _ (List.Mem.head _))

theorem clipforge_c3_witness :
    containsSub (buildClipCmd fmtTrivial 0 c3clip true 5)
      [cl "-filter_complex", cl "[0:v]null[v];[0:a]anull[a]",
        cl "-map", cl "[v]", cl "-map", cl "[a]"] = true ∧
    cl "libx264" ∈ buildClipCmd fmtTrivial 0 c3clip true 5 :=
  clipforge_c3_passthrough fmtTrivial 0 c3clip 5 (by decide) (by decide)
    (by decide) (Or.inl (by decide))

/-- C6 counterexample: an export job with exactly one clip does emit a
progress record (the initial `Starting merge...` event is emitted before
the single-clip check, lib.rs:491-506) — the claim that single-clip jobs
emit no progress records is false. -/
theorem clipforge_c6_counterexample :
    (export_multi_clip fmtTrivial [cDefault] (cl "out.mp4") envAllOk senvOk
      menvOk).progress ≠ [] := by decide

/-- C6 amended: an export job with exactly one clip emits exactly one
progress record, the initial `{current 0, total 1, "Starting merge..."}`
event; the per-clip and concatenation progress records are emitted only
on the multi-clip path. -/
theorem clipforge_c6_single_progress (fmt : NumFmt) (clip : ClipSegment)
    (out : List Char) (env : Nat → ClipEnvR) (senv : SingleEnv)
    (menv : ManifestEnv) :
    (export_multi_clip fmt [clip] out env senv menv).progress =
      [⟨0, 1, startingMsg⟩] := rfl

/-- Every branch of the per-clip error classification names the 1-based
clip index. -/
theorem classifyClipError_mentions (k : Nat) (s : List Char) :
    containsSub (classifyClipError k s) (digitsOf (k + 1)) = true := by
  simp only [classifyClipError]
  repeat' split
  all_goals
    simp only [List.append_assoc]
    exact containsSub_append _ _ _

/-- Shifting an index range: `[i, i+n]` as `i` followed by
`[i+1, i+1+(n-1)]`. -/
theorem range_shift_cons (i n : Nat) :
    ((List.range (n + 1)).map fun j => i + j) =
      i :: ((List.range n).map fun j => (i + 1) + j) := by
  rw [List.range_succ_eq_map]
  simp only [List.map_cons, Nat.add_zero, List.map_map]
  refine congrArg (i :: ·) (List.map_congr_left ?_)
  intro a _
  simp only [Function.comp_apply, Nat.succ_eq_add_one]
  omega


/-- When the trim windows are resolved or the duration probe runs
successfully, the duration resolution succeeds. -/
theorem durResOf_ok (c : ClipSegment) (e : ClipEnvR) (i : Nat)
    (h : ((rTrimStart c).isSome = true ∧ (rTrimEnd c).isSome = true) ∨
      e.durProbeExec = none) :
    ∃ q, durResOf c e i = .ok q := by
  rcases hts : rTrimStart c with _ | ts
  · rcases h with ⟨h1, _⟩ | hdp
    · rw [hts] at h1; simp at h1
    · exact ⟨round_to_millis e.durParsed, by simp [durResOf, hts, hdp]⟩
  · rcases hte : rTrimEnd c with _ | te
    · rcases h with ⟨_, h2⟩ | hdp
      · rw [hte] at h2; simp at h2
      · exact ⟨round_to_millis e.durParsed,
          by simp [durResOf, hts, hte, hdp]⟩
    · exact ⟨round_to_millis (te - ts), by simp [durResOf, hts, hte]⟩

/-- When every external step succeeds, the per-clip loop writes one temp
file per clip and succeeds. -/
theorem processClips_all_ok (fmt : NumFmt) (env : Nat → ClipEnvR)
    (total : Nat) :
    ∀ (rest : List ClipSegment) (i : Nat) (temps : List Nat)
      (prog : List MergeProgress),
    (∀ j (hj : j < rest.length),
      clipStepOk (rest.get ⟨j, hj⟩) (env (i + j))) →
    ∃ p, processClips fmt env total rest i temps prog =
      .ok (temps ++ (List.range rest.length).map fun j => i + j) p := by
  intro rest
  induction rest with
  | nil =>
    intro i temps prog _
    exact ⟨prog, by simp [processClips]⟩
  | cons c rest ih =>
    intro i temps prog h
    have h0 : clipStepOk c (env (i + 0)) := h 0 (by simp)
    rw [Nat.add_zero] at h0
    obtain ⟨hp, hd, he⟩ := h0
    obtain ⟨q, hq⟩ := durResOf_ok c (env i) i hd
    have hnext : ∀ j (hj : j < rest.length),
        clipStepOk (rest.get ⟨j, hj⟩) (env ((i + 1) + j)) := by
      intro j hj
      have hh : clipStepOk (rest.get ⟨j, hj⟩) (env (i + (j + 1))) :=
        h (j + 1) (by simpa using Nat.succ_lt_succ hj)
      rw [show i + (j + 1) = (i + 1) + j by omega] at hh
      exact hh
    obtain ⟨p, hp2⟩ := ih (i + 1) (temps ++ [i])
      (prog ++ [⟨i + 1, total, processingMsg (i + 1) total⟩]) hnext
    refine ⟨p, ?_⟩
    simp only [processClips, hp, hq, he, hp2, List.length_cons,
      range_shift_cons]
    simp [List.append_assoc]

/-- When the first `k` clips succeed, clip `k`'s probes succeed and clip
`k`'s encode exits nonzero with stderr `s`, the loop fails with the
classified message for absolute index `i + k` and deletes every temp file
(the cleanup loop of lib.rs:714-717 removes all of `temp_files`). -/
theorem processClips_fail_at (fmt : NumFmt) (env : Nat → ClipEnvR)
    (total : Nat) :
    ∀ (k : Nat) (rest : List ClipSegment) (i : Nat) (temps : List Nat)
      (prog : List MergeProgress) (s : List Char) (hk : k < rest.length),
    (∀ j (hj : j < k), clipStepOk (rest.get ⟨j, by omega⟩) (env (i + j))) →
    clipProbePartOk (rest.get ⟨k, hk⟩) (env (i + k)) →
    (env (i + k)).encode = .fail s →
    ∃ p, processClips fmt env total rest i temps prog =
      .fail (classifyClipError (i + k) s) [] p := by
  intro k
  induction k with
  | zero =>
    intro rest i temps prog s hk _ hprobe henc
    cases rest with
    | nil => simp at hk
    | cons c rest =>
      have hprobe0 : clipProbePartOk c (env (i + 0)) := hprobe
      rw [Nat.add_zero] at hprobe0 henc ⊢
      obtain ⟨hp, hd⟩ := hprobe0
      obtain ⟨q, hq⟩ := durResOf_ok c (env i) i hd
      exact ⟨prog ++ [⟨i + 1, total, processingMsg (i + 1) total⟩],
        by simp only [processClips, hp, hq, henc]⟩
  | succ k ih =>
    intro rest i temps prog s hk hpre hprobe henc
    cases rest with
    | nil => simp at hk
    | cons c rest =>
      have h0 : clipStepOk c (env (i + 0)) := hpre 0 (by omega)
      rw [Nat.add_zero] at h0
      obtain ⟨hp, hd, he⟩ := h0
      obtain ⟨q, hq⟩ := durResOf_ok c (env i) i hd
      have hk2 : k < rest.length := by simpa using Nat.lt_of_succ_lt_succ hk
      have hpre2 : ∀ j (hj : j < k),
          clipStepOk (rest.get ⟨j, by omega⟩) (env ((i + 1) + j)) := by
        intro j hj
        have hh : clipStepOk (rest.get ⟨j, by omega⟩) (env (i + (j + 1))) :=
          hpre (j + 1) (by omega)
        rw [show i + (j + 1) = (i + 1) + j by omega] at hh
        exact hh
      have hprobe2 : clipProbePartOk (rest.get ⟨k, hk2⟩)
          (env ((i + 1) + k)) := by
        have hh : clipProbePartOk (rest.get ⟨k, hk2⟩) (env (i + (k + 1))) :=
          hprobe
        rw [show i + (k + 1) = (i + 1) + k by omega] at hh
        exact hh
      have henc2 : (env ((i + 1) + k)).encode = .fail s := by
        rw [show (i + 1) + k = i + (k + 1) by omega]
        exact henc
      obtain ⟨p, hp2⟩ := ih rest (i + 1) (temps ++ [i])
        (prog ++ [⟨i + 1, total, processingMsg (i + 1) total⟩]) s hk2
        hpre2 hprobe2 henc2
      refine ⟨p, ?_⟩
      rw [show i + (k + 1) = (i + 1) + k by omega]
      simp only [processClips, hp, hq, he, hp2]

/-- C2 counterexample: with two clips that both encode successfully,
`export_multi_clip` returns an error while both temp files are still on
disk, both when creating the manifest file fails (lib.rs:750-752 returns
via `?` without the cleanup loop) and when writing to it fails
(lib.rs:755-757 likewise) — the claim that every failing exit path deletes
all temporary files is false on both manifest paths. -/
theorem clipforge_c2_counterexample :
    (resultIsOk (export_multi_clip fmtTrivial [cDefault, cDefault]
      (cl "out.mp4") envAllOk senvOk menvCreateFail).result = false ∧
    (export_multi_clip fmtTrivial [cDefault, cDefault] (cl "out.mp4")
      envAllOk senvOk menvCreateFail).fs.temps = [0, 1]) ∧
    (resultIsOk (export_multi_clip fmtTrivial [cDefault, cDefault]
      (cl "out.mp4") envAllOk senvOk menvWriteFail).result = false ∧
    (export_multi_clip fmtTrivial [cDefault, cDefault] (cl "out.mp4")
      envAllOk senvOk menvWriteFail).fs.temps = [0, 1]) := by
  refine ⟨⟨?_, ?_⟩, ?_, ?_⟩
  · decide
  · decide
  · decide
  · decide

/-- An oracle where clip 1's encode exits nonzero with a
permission-denied diagnostic and every other step succeeds. -/
def envFailAt1 : Nat → ClipEnvR := fun i =>
  if i = 1 then ⟨none, true, none, 0, .fail (cl "x Permission denied y")⟩
  else ⟨none, true, none, 0, .ok⟩

/-- C2 amended: on a per-clip encode failure (nonzero encoder exit) at
clip `k` of a multi-clip job, all temporary files created by earlier clips
are deleted before the error is returned, and the classified message names
the 1-based index `k + 1`; on a concatenation failure (nonzero concat
exit) all temp files are likewise gone (deleted unconditionally before the
status check).  However, a manifest-file creation failure and a
manifest-file write failure each return their error with every temp file
still on disk — the original claim's ``manifest-file creation or write
failure'' cleanup does not hold on either path. -/
theorem clipforge_c2_cleanup :
    (∀ (fmt : NumFmt) (a b : ClipSegment) (t : List ClipSegment)
       (out : List Char) (env : Nat → ClipEnvR) (senv : SingleEnv)
       (menv : ManifestEnv) (k : Nat) (s : List Char)
       (hk : k < (a :: b :: t).length),
      (∀ j (hj : j < k),
        clipStepOk ((a :: b :: t).get ⟨j, by omega⟩) (env j)) →
      clipProbePartOk ((a :: b :: t).get ⟨k, hk⟩) (env k) →
      (env k).encode = .fail s →
      ∃ p, export_multi_clip fmt (a :: b :: t) out env senv menv =
        ⟨.error (classifyClipError k s), ⟨[], false⟩, p⟩) ∧
    (∀ (k : Nat) (s : List Char),
      containsSub (classifyClipError k s) (digitsOf (k + 1)) = true) ∧
    (∀ (fmt : NumFmt) (a b : ClipSegment) (t : List ClipSegment)
       (out : List Char) (env : Nat → ClipEnvR) (senv : SingleEnv)
       (menv : ManifestEnv),
      (∀ j (hj : j < (a :: b :: t).length),
        clipStepOk ((a :: b :: t).get ⟨j, hj⟩) (env j)) →
      menv.createRes = none → menv.writeRes = none →
      menv.concatExec = none → menv.concatStatusOk = false →
      ∃ p, export_multi_clip fmt (a :: b :: t) out env senv menv =
        ⟨.error (cl "FFmpeg concat failed: " ++ menv.concatStderr),
          ⟨[], false⟩, p⟩) ∧
    (∀ (fmt : NumFmt) (a b : ClipSegment) (t : List ClipSegment)
       (out : List Char) (env : Nat → ClipEnvR) (senv : SingleEnv)
       (menv : ManifestEnv) (e : List Char),
      (∀ j (hj : j < (a :: b :: t).length),
        clipStepOk ((a :: b :: t).get ⟨j, hj⟩) (env j)) →
      menv.createRes = some e →
      ∃ p, export_multi_clip fmt (a :: b :: t) out env senv menv =
        ⟨.error (cl "Failed to create concat file: " ++ e),
          ⟨List.range (a :: b :: t).length, false⟩, p⟩ ∧
        List.range (a :: b :: t).length ≠ []) ∧
    (∀ (fmt : NumFmt) (a b : ClipSegment) (t : List ClipSegment)
       (out : List Char) (env : Nat → ClipEnvR) (senv : SingleEnv)
       (menv : ManifestEnv) (e : List Char),
      (∀ j (hj : j < (a :: b :: t).length),
        clipStepOk ((a :: b :: t).get ⟨j, hj⟩) (env j)) →
      menv.createRes = none → menv.writeRes = some e →
      ∃ p, export_multi_clip fmt (a :: b :: t) out env senv menv =
        ⟨.error (cl "Failed to write to concat file: " ++ e),
          ⟨List.range (a :: b :: t).length, true⟩, p⟩ ∧
        List.range (a :: b :: t).length ≠ []) := by
  refine ⟨?_, ?_, ?_, ?_, ?_⟩
  · intro fmt a b t out env senv menv k s hk hpre hprobe henc
    have hpre0 : ∀ j (hj : j < k),
        clipStepOk ((a :: b :: t).get ⟨j, by omega⟩) (env (0 + j)) := by
      intro j hj
      rw [Nat.zero_add]
      exact hpre j hj
    have hprobe0 : clipProbePartOk ((a :: b :: t).get ⟨k, hk⟩)
        (env (0 + k)) := by
      rw [Nat.zero_add]; exact hprobe
    have henc0 : (env (0 + k)).encode = .fail s := by
      rw [Nat.zero_add]; exact henc
    obtain ⟨p, hp⟩ := processClips_fail_at fmt env (a :: b :: t).length k
      (a :: b :: t) 0 [] [⟨0, (a :: b :: t).length, startingMsg⟩] s hk
      hpre0 hprobe0 henc0
    refine ⟨p, ?_⟩
    simp only [export_multi_clip, hp, Nat.zero_add]
  · intro k s
    exact classifyClipError_mentions k s
  · intro fmt a b t out env senv menv hall hc hw hx hs
    have hall0 : ∀ j (hj : j < (a :: b :: t).length),
        clipStepOk ((a :: b :: t).get ⟨j, hj⟩) (env (0 + j)) := by
      intro j hj
      rw [Nat.zero_add]
      exact hall j hj
    obtain ⟨p, hp⟩ := processClips_all_ok fmt env (a :: b :: t).length
      (a :: b :: t) 0 [] [⟨0, (a :: b :: t).length, startingMsg⟩] hall0
    refine ⟨p ++ [⟨(a :: b :: t).length, (a :: b :: t).length,
      mergingMsg⟩], ?_⟩
    simp only [export_multi_clip, hp, hc, hw, hx, hs, Bool.false_eq_true,
      if_false]
  · intro fmt a b t out env senv menv e hall hc
    have hall0 : ∀ j (hj : j < (a :: b :: t).length),
        clipStepOk ((a :: b :: t).get ⟨j, hj⟩) (env (0 + j)) := by
      intro j hj
      rw [Nat.zero_add]
      exact hall j hj
    obtain ⟨p, hp⟩ := processClips_all_ok fmt env (a :: b :: t).length
      (a :: b :: t) 0 [] [⟨0, (a :: b :: t).length, startingMsg⟩] hall0
    have hmap : ((List.range (a :: b :: t).length).map fun j => 0 + j) =
        List.range (a :: b :: t).length := by
      rw [List.map_congr_left fun x _ => Nat.zero_add x]
      exact List.map_id _
    refine ⟨p, ?_, by simp⟩
    simp only [export_multi_clip, hp, hc, hmap, List.nil_append]
  · intro fmt a b t out env senv menv e hall hc hw
    have hall0 : ∀ j (hj : j < (a :: b :: t).length),
        clipStepOk ((a :: b :: t).get ⟨j, hj⟩) (env (0 + j)) := by
      intro j hj
      rw [Nat.zero_add]
      exact hall j hj
    obtain ⟨p, hp⟩ := processClips_all_ok fmt env (a :: b :: t).length
      (a :: b :: t) 0 [] [⟨0, (a :: b :: t).length, startingMsg⟩] hall0
    have hmap : ((List.range (a :: b :: t).length).map fun j => 0 + j) =
        List.range (a :: b :: t).length := by
      rw [List.map_congr_left fun x _ => Nat.zero_add x]
      exact List.map_id _
    refine ⟨p, ?_, by simp⟩
    simp only [export_multi_clip, hp, hc, hw, hmap, List.nil_append]

theorem clipforge_c2_witness :
    (∃ p, export_multi_clip fmtTrivial [cDefault, cDefault] (cl "out.mp4")
        envFailAt1 senvOk menvOk =
      ⟨.error (classifyClipError 1 (cl "x Permission denied y")),
        ⟨[], false⟩, p⟩) ∧
    containsSub (classifyClipError 1 (cl "x Permission denied y"))
      (digitsOf 2) = true ∧
    (∃ p, export_multi_clip fmtTrivial [cDefault, cDefault] (cl "out.mp4")
        envAllOk senvOk menvWriteFail =
      ⟨.error (cl "Failed to write to concat file: " ++ cl "disk full"),
        ⟨List.range 2, true⟩, p⟩ ∧
      List.range 2 ≠ []) := by
  refine ⟨?_, ?_, ?_⟩
  · exact clipforge_c2_cleanup.1 fmtTrivial cDefault cDefault [] (cl "out.mp4")
      envFailAt1 senvOk menvOk 1 (cl "x Permission denied y") (by decide)
      (fun j hj => by interval_cases j; exact ⟨rfl, Or.inr rfl, rfl⟩)
      ⟨rfl, Or.inr rfl⟩ (by decide)
  · exact clipforge_c2_cleanup.2.1 1 (cl "x Permission denied y")
  · exact clipforge_c2_cleanup.2.2.2.2 fmtTrivial cDefault cDefault []
      (cl "out.mp4") envAllOk senvOk menvWriteFail (cl "disk full")
      (fun j hj => by
        have hj2 : j < 2 := by simpa using hj
        interval_cases j <;> exact ⟨rfl, Or.inr rfl, rfl⟩)
      rfl rfl
